import Mathlib

/-!
Verification of the medical diagnostic audio capture pipeline.

This file gives a shallow embedding of the core audio code of the
repository and proves properties about it:

* the PCM/WAV encoder `encodeWav` from `lib/wavEncoder.ts`
  (concatenated into `src/components/audio/audio-recorder/audio-recorder-controls.tsx`),
* the bounded sample-frame buffer used by the `scriptProcessor.onaudioprocess`
  callbacks in `src/unnamed/part_000` and `src/hooks/use-audio-visualization.ts`,
* the waveform decimation loop of `drawRecordingWaveform` /
  `drawDetailedWaveform`,
* the recorder lifecycle functions `startRecording`, `stopRecording`,
  `forceStopRecording` of `src/unnamed/part_000` (the 48 kHz variant, which
  the spec designates as authoritative).

Machine floats of the source are modelled as rationals; JavaScript numbers
appearing as sizes and offsets are modelled as naturals with explicit
wrap-around (`% 2 ^ 32`, `% 2 ^ 16`) where `DataView` stores would wrap.
-/

/-! ## PCM quantization (encodeWav, wavEncoder.ts lines 198-205)

The source does, per sample:
  sample = Math.max(-1, Math.min(1, sample))
  const intSample = sample < 0 ? sample * 0x8000 : sample * 0x7fff
  bufferView.setInt16(offset, intSample, true)
`setInt16` converts its argument with ToIntegerOrInfinity, which truncates
toward zero, and stores the low 16 bits little-endian. -/

/-- Clamp a sample to the interval from -1 to 1, exactly as
`Math.max(-1, Math.min(1, sample))` does. -/
def clampSample (s : ℚ) : ℚ := max (-1) (min 1 s)

/-- Asymmetric scaling of a clamped sample:
`sample < 0 ? sample * 0x8000 : sample * 0x7fff`. -/
def convertSample (s : ℚ) : ℚ := if s < 0 then s * 32768 else s * 32767

/-- Truncation toward zero, the conversion applied by ToIntegerOrInfinity
when a fractional number is handed to `DataView.setInt16`. -/
def ratTrunc (q : ℚ) : ℤ := if q < 0 then ⌈q⌉ else ⌊q⌋

/-- The full per-sample quantizer of `encodeWav`: clamp, scale, truncate. -/
def quantizeSample (s : ℚ) : ℤ := ratTrunc (convertSample (clampSample s))

/-- Inverse scaling of the quantizer, dividing negative code points by 32768
and non-negative ones by 32767. -/
def dequantizeSample (n : ℤ) : ℚ := if n < 0 then (n : ℚ) / 32768 else (n : ℚ) / 32767

/-- Little-endian bytes stored for one sample by
`bufferView.setInt16(offset, intSample, true)`: the two
low-order bytes of the two's-complement representation. -/
def sampleBytes (s : ℚ) : List ℕ :=
  (((quantizeSample s) % (65536 : ℤ)).toNat % 256) ::
    [((quantizeSample s) % (65536 : ℤ)).toNat / 256 % 256]

/-! ## WAV container layout (encodeWav, wavEncoder.ts lines 148-209) -/

/-- Little-endian byte quadruple written by `DataView.setUint32 (_, n, true)`. -/
def u32le (n : ℕ) : List ℕ :=
  [n % 256, n / 256 % 256, n / 65536 % 256, n / 16777216 % 256]

/-- Little-endian byte pair written by `DataView.setUint16 (_, n, true)`. -/
def u16le (n : ℕ) : List ℕ := [n % 256, n / 256 % 256]

/-- ASCII bytes of the four-character tag strings written by `writeString`. -/
def tagBytes (s : String) : List ℕ := s.toList.map Char.toNat

/-- Decoded waveform handed to `encodeWav`: the relevant data of a Web Audio
`AudioBuffer` (sample rate, frame count `length`, per-channel sample data). -/
structure DecodedWave where
  sampleRate : ℕ
  length : ℕ
  channels : List (List ℚ)
deriving Repr

/-- Interleaved bytes of one frame: for frame `i`, each channel in order
contributes the two little-endian bytes of its quantized sample
(`for (ch …) { … setInt16 …}` inside the frame loop). -/
def framePayload (w : DecodedWave) (i : ℕ) : List ℕ :=
  w.channels.foldr (fun ch acc => sampleBytes (ch.getD i 0) ++ acc) []

/-- Payload bytes of the first `n` frames, in frame order
(the `for (let i = 0; i < buffer.length; i++)` loop). -/
def payloadAux (w : DecodedWave) : ℕ → List ℕ
  | 0 => []
  | n + 1 => payloadAux w n ++ framePayload w n

/-- The complete interleaved PCM payload. -/
def payloadBytes (w : DecodedWave) : List ℕ := payloadAux w w.length

/-- Block alignment `(numChannels * bitsPerSample) / 8` with
`bitsPerSample = 16`. -/
def blockAlign (w : DecodedWave) : ℕ := w.channels.length * 16 / 8

/-- Data chunk size `buffer.length * blockAlign`. -/
def dataSize (w : DecodedWave) : ℕ := w.length * blockAlign w

/-- The byte sequence produced by `encodeWav`: a 44-byte RIFF/WAVE header,
written field by field at consecutive offsets exactly as the sequence of
`DataView` stores in the source, followed by the interleaved payload. -/
def encodeWav (w : DecodedWave) : List ℕ :=
  tagBytes "RIFF" ++ u32le (36 + dataSize w) ++ tagBytes "WAVE" ++
  tagBytes "fmt " ++ u32le 16 ++ u16le 1 ++ u16le w.channels.length ++
  u32le w.sampleRate ++ u32le (w.sampleRate * blockAlign w) ++
  u16le (blockAlign w) ++ u16le 16 ++
  tagBytes "data" ++ u32le (dataSize w) ++ payloadBytes w

/-- Read one byte of an encoded container (0 beyond the end). -/
def readByte (bs : List ℕ) (i : ℕ) : ℕ := bs.getD i 0

/-- Read a little-endian 16-bit field at offset `i`. -/
def readU16le (bs : List ℕ) (i : ℕ) : ℕ :=
  readByte bs i + 256 * readByte bs (i + 1)

/-- Read a little-endian 32-bit field at offset `i`. -/
def readU32le (bs : List ℕ) (i : ℕ) : ℕ :=
  readByte bs i + 256 * readByte bs (i + 1) + 65536 * readByte bs (i + 2) +
    16777216 * readByte bs (i + 3)

/-! Reconstruction lemmas for little-endian fields. -/

theorem u16_recon (n : ℕ) : n % 256 + 256 * (n / 256 % 256) = n % 65536 := by
  omega

theorem u32_recon (n : ℕ) :
    n % 256 + 256 * (n / 256 % 256) + 65536 * (n / 65536 % 256) +
      16777216 * (n / 16777216 % 256) = n % 4294967296 := by
  omega

/-! Helper lemmas to read fields out of a concatenated byte container. -/

theorem drop_chunk (bs c rest : List ℕ) (i : ℕ) (h : bs.drop i = c ++ rest) :
    bs.drop (i + c.length) = rest := by
  rw [← List.drop_drop, h, List.drop_left]

theorem getD_of_drop (bs tail : List ℕ) (i k : ℕ) (h : bs.drop i = tail) :
    bs.getD (i + k) 0 = tail.getD k 0 := by
  rw [List.getD_eq_getElem?_getD, List.getD_eq_getElem?_getD, ← h,
    List.getElem?_drop]

theorem readU32le_drop (bs : List ℕ) (i n : ℕ) (rest : List ℕ)
    (h : bs.drop i = u32le n ++ rest) : readU32le bs i = n % 4294967296 := by
  have e0 : bs.getD (i + 0) 0 = (u32le n ++ rest).getD 0 0 := getD_of_drop _ _ _ _ h
  have e1 : bs.getD (i + 1) 0 = (u32le n ++ rest).getD 1 0 := getD_of_drop _ _ _ _ h
  have e2 : bs.getD (i + 2) 0 = (u32le n ++ rest).getD 2 0 := getD_of_drop _ _ _ _ h
  have e3 : bs.getD (i + 3) 0 = (u32le n ++ rest).getD 3 0 := getD_of_drop _ _ _ _ h
  rw [Nat.add_zero] at e0
  unfold readU32le readByte
  rw [e0, e1, e2, e3]
  have f0 : (u32le n ++ rest).getD 0 0 = n % 256 := rfl
  have f1 : (u32le n ++ rest).getD 1 0 = n / 256 % 256 := rfl
  have f2 : (u32le n ++ rest).getD 2 0 = n / 65536 % 256 := rfl
  have f3 : (u32le n ++ rest).getD 3 0 = n / 16777216 % 256 := rfl
  rw [f0, f1, f2, f3]
  exact u32_recon n

theorem readU16le_drop (bs : List ℕ) (i n : ℕ) (rest : List ℕ)
    (h : bs.drop i = u16le n ++ rest) : readU16le bs i = n % 65536 := by
  have e0 : bs.getD (i + 0) 0 = (u16le n ++ rest).getD 0 0 := getD_of_drop _ _ _ _ h
  have e1 : bs.getD (i + 1) 0 = (u16le n ++ rest).getD 1 0 := getD_of_drop _ _ _ _ h
  rw [Nat.add_zero] at e0
  unfold readU16le readByte
  rw [e0, e1]
  have f0 : (u16le n ++ rest).getD 0 0 = n % 256 := rfl
  have f1 : (u16le n ++ rest).getD 1 0 = n / 256 % 256 := rfl
  rw [f0, f1]
  exact u16_recon n

theorem take4_drop (bs c rest : List ℕ) (i : ℕ) (h : bs.drop i = c ++ rest)
    (hc : c.length = 4) : (bs.drop i).take 4 = c := by
  rw [h, ← hc, List.take_left]

/-- Full right-associated decomposition of the encoder output, matching the
order of the `DataView` stores in the source. -/
theorem encodeWav_decomp (w : DecodedWave) :
    (encodeWav w).drop 0 =
      tagBytes "RIFF" ++ (u32le (36 + dataSize w) ++ (tagBytes "WAVE" ++
      (tagBytes "fmt " ++ (u32le 16 ++ (u16le 1 ++ (u16le w.channels.length ++
      (u32le w.sampleRate ++ (u32le (w.sampleRate * blockAlign w) ++
      (u16le (blockAlign w) ++ (u16le 16 ++ (tagBytes "data" ++
      (u32le (dataSize w) ++ payloadBytes w)))))))))))) := by
  rw [List.drop_zero]; rfl

theorem framePayload_length (w : DecodedWave) (i : ℕ) :
    (framePayload w i).length = 2 * w.channels.length := by
  unfold framePayload
  induction w.channels with
  | nil => rfl
  | cons ch chs ih =>
    simp only [List.foldr_cons, List.length_append, List.length_cons, ih]
    have : (sampleBytes (ch.getD i 0)).length = 2 := rfl
    omega

theorem payloadAux_length (w : DecodedWave) (n : ℕ) :
    (payloadAux w n).length = n * (2 * w.channels.length) := by
  induction n with
  | zero => simp [payloadAux]
  | succ m ih =>
    simp only [payloadAux, List.length_append, ih, framePayload_length]
    ring

theorem payloadBytes_length (w : DecodedWave) :
    (payloadBytes w).length = dataSize w := by
  rw [payloadBytes, payloadAux_length, dataSize, blockAlign]
  have h : w.channels.length * 16 / 8 = 2 * w.channels.length := by omega
  rw [h]

theorem u32le_length (n : ℕ) : (u32le n).length = 4 := rfl

theorem u16le_length (n : ℕ) : (u16le n).length = 2 := rfl

/-- Shared: the payload of the container starts at byte offset 44. -/
theorem encodeWav_drop_payload (w : DecodedWave) :
    (encodeWav w).drop 44 = payloadBytes w := by
  have h0 := encodeWav_decomp w
  have h4 := drop_chunk _ _ _ _ h0
  have h8 := drop_chunk _ _ _ _ h4
  have h12 := drop_chunk _ _ _ _ h8
  have h16 := drop_chunk _ _ _ _ h12
  have h20 := drop_chunk _ _ _ _ h16
  have h22 := drop_chunk _ _ _ _ h20
  have h24 := drop_chunk _ _ _ _ h22
  have h28 := drop_chunk _ _ _ _ h24
  have h32 := drop_chunk _ _ _ _ h28
  have h34 := drop_chunk _ _ _ _ h32
  have h36 := drop_chunk _ _ _ _ h34
  have h40 := drop_chunk _ _ _ _ h36
  exact drop_chunk _ _ _ _ h40

theorem sampleBytes_one : sampleBytes 1 = [255, 127] := by
  norm_num [sampleBytes, quantizeSample, convertSample, clampSample, ratTrunc]
  constructor <;> decide

theorem sampleBytes_negOne : sampleBytes (-1) = [0, 128] := by
  have h : quantizeSample (-1) = -32768 := by
    norm_num [quantizeSample, convertSample, clampSample, ratTrunc]
    rw [show ((-32768 : ℚ)) = ((-32768 : ℤ) : ℚ) by norm_num, Int.ceil_intCast]
  norm_num [sampleBytes, h]
  constructor <;> decide

/-- C2: for every float input sample, the PCM encoder first clamps the sample
to the interval from -1 to 1 and then converts it with
`s < 0 ? s * 32768 : s * 32767`; encoding the single full-scale sample 1.0
yields payload bytes 0xFF 0x7F (32767 little-endian) and encoding -1.0 yields
payload bytes 0x00 0x80 (-32768 little-endian). -/
theorem pcm_quantization_fullscale_bytes :
    (∀ s : ℚ, quantizeSample s = ratTrunc (convertSample (clampSample s))) ∧
    (encodeWav ⟨48000, 1, [[1]]⟩).drop 44 = [255, 127] ∧
    (encodeWav ⟨48000, 1, [[-1]]⟩).drop 44 = [0, 128] := by
  refine ⟨fun s => rfl, ?_, ?_⟩
  · rw [encodeWav_drop_payload]
    have hp : payloadBytes ⟨48000, 1, [[1]]⟩ = sampleBytes 1 := by
      simp [payloadBytes, payloadAux, framePayload]
    rw [hp, sampleBytes_one]
  · rw [encodeWav_drop_payload]
    have hp : payloadBytes ⟨48000, 1, [[-1]]⟩ = sampleBytes (-1) := by
      simp [payloadBytes, payloadAux, framePayload]
    rw [hp, sampleBytes_negOne]

/-- C3: for every decoded waveform whose field values fit their header slots,
the encoder produces exactly 44 + dataSize bytes; the header fields at their
canonical little-endian offsets are RIFF, 36 + dataSize, WAVE, fmt-16,
audio format 1, channel count, sample rate, byte rate, block align, 16 bits
per sample, and data + dataSize; the interleaved 16-bit payload starts at
offset 44. -/
theorem encodeWav_header_layout (w : DecodedWave)
    (hsr : w.sampleRate < 4294967296)
    (hds : 36 + dataSize w < 4294967296)
    (hbr : w.sampleRate * blockAlign w < 4294967296)
    (hch : w.channels.length < 32768) :
    (encodeWav w).length = 44 + dataSize w ∧
    (encodeWav w).take 4 = [82, 73, 70, 70] ∧
    readU32le (encodeWav w) 4 = 36 + dataSize w ∧
    ((encodeWav w).drop 8).take 4 = [87, 65, 86, 69] ∧
    ((encodeWav w).drop 12).take 4 = [102, 109, 116, 32] ∧
    readU32le (encodeWav w) 16 = 16 ∧
    readU16le (encodeWav w) 20 = 1 ∧
    readU16le (encodeWav w) 22 = w.channels.length ∧
    readU32le (encodeWav w) 24 = w.sampleRate ∧
    readU32le (encodeWav w) 28 = w.sampleRate * blockAlign w ∧
    readU16le (encodeWav w) 32 = w.channels.length * 16 / 8 ∧
    readU16le (encodeWav w) 34 = 16 ∧
    ((encodeWav w).drop 36).take 4 = [100, 97, 116, 97] ∧
    readU32le (encodeWav w) 40 = dataSize w ∧
    (encodeWav w).drop 44 = payloadBytes w := by
  have h0 := encodeWav_decomp w
  have h4 := drop_chunk _ _ _ _ h0
  have h8 := drop_chunk _ _ _ _ h4
  have h12 := drop_chunk _ _ _ _ h8
  have h16 := drop_chunk _ _ _ _ h12
  have h20 := drop_chunk _ _ _ _ h16
  have h22 := drop_chunk _ _ _ _ h20
  have h24 := drop_chunk _ _ _ _ h22
  have h28 := drop_chunk _ _ _ _ h24
  have h32 := drop_chunk _ _ _ _ h28
  have h34 := drop_chunk _ _ _ _ h32
  have h36 := drop_chunk _ _ _ _ h34
  have h40 := drop_chunk _ _ _ _ h36
  have h44 := drop_chunk _ _ _ _ h40
  refine ⟨?_, ?_, ?_, ?_, ?_, ?_, ?_, ?_, ?_, ?_, ?_, ?_, ?_, ?_, ?_⟩
  · have t1 : (tagBytes "RIFF").length = 4 := rfl
    have t2 : (tagBytes "WAVE").length = 4 := rfl
    have t3 : (tagBytes "fmt ").length = 4 := rfl
    have t4 : (tagBytes "data").length = 4 := rfl
    simp only [encodeWav, List.length_append, t1, t2, t3, t4, u32le_length,
      u16le_length, payloadBytes_length]
  · have htake := take4_drop _ _ _ _ h0 rfl
    rw [List.drop_zero] at htake
    exact htake
  · have hv := readU32le_drop _ _ _ _ h4
    rwa [Nat.mod_eq_of_lt hds] at hv
  · exact take4_drop _ _ _ _ h8 rfl
  · exact take4_drop _ _ _ _ h12 rfl
  · exact readU32le_drop _ _ _ _ h16
  · exact readU16le_drop _ _ _ _ h20
  · have hv := readU16le_drop _ _ _ _ h22
    rwa [Nat.mod_eq_of_lt (by omega)] at hv
  · have hv := readU32le_drop _ _ _ _ h24
    rwa [Nat.mod_eq_of_lt hsr] at hv
  · have hv := readU32le_drop _ _ _ _ h28
    rwa [Nat.mod_eq_of_lt hbr] at hv
  · have hv := readU16le_drop _ _ _ _ h32
    rw [Nat.mod_eq_of_lt (by unfold blockAlign; omega)] at hv
    exact hv
  · exact readU16le_drop _ _ _ _ h34
  · exact take4_drop _ _ _ _ h36 rfl
  · have hv := readU32le_drop _ _ _ _ h40
    rwa [Nat.mod_eq_of_lt (by omega)] at hv
  · exact h44

/-- Witness for the header-layout theorem at a concrete one-frame mono
48 kHz waveform. -/
theorem encodeWav_header_layout_witness :
    (encodeWav ⟨48000, 1, [[1]]⟩).length = 46 ∧
    readU16le (encodeWav ⟨48000, 1, [[1]]⟩) 22 = 1 ∧
    readU32le (encodeWav ⟨48000, 1, [[1]]⟩) 24 = 48000 := by
  have h := encodeWav_header_layout ⟨48000, 1, [[1]]⟩ (by decide) (by decide)
    (by decide) (by decide)
  exact ⟨h.1, h.2.2.2.2.2.2.2.1, h.2.2.2.2.2.2.2.2.1⟩

/-! ## Quantizer analysis (claims about round trip, monotonicity, range) -/

theorem clampSample_le_one (s : ℚ) : clampSample s ≤ 1 := by
  unfold clampSample
  exact max_le (by norm_num) (min_le_left _ _)

theorem neg_one_le_clampSample (s : ℚ) : -1 ≤ clampSample s := le_max_left _ _

theorem clampSample_mono (a b : ℚ) (h : a ≤ b) : clampSample a ≤ clampSample b := by
  unfold clampSample
  exact max_le_max (le_refl _) (min_le_min (le_refl _) h)

theorem convertSample_mono (a b : ℚ) (h : a ≤ b) :
    convertSample a ≤ convertSample b := by
  unfold convertSample
  split_ifs with ha hb
  · linarith
  · have h1 : a * 32768 ≤ 0 := mul_nonpos_of_nonpos_of_nonneg (le_of_lt ha) (by norm_num)
    have h2 : 0 ≤ b * 32767 := mul_nonneg (not_lt.mp hb) (by norm_num)
    linarith
  · linarith
  · linarith

theorem ceil_nonpos_q (u : ℚ) (h : u ≤ 0) : ⌈u⌉ ≤ 0 :=
  Int.ceil_le.mpr (by exact_mod_cast h)

theorem ratTrunc_mono (u v : ℚ) (h : u ≤ v) : ratTrunc u ≤ ratTrunc v := by
  unfold ratTrunc
  split_ifs with hu hv
  · exact Int.ceil_le_ceil h
  · exact le_trans (ceil_nonpos_q _ (le_of_lt hu)) (Int.floor_nonneg.mpr (not_lt.mp hv))
  · linarith
  · exact Int.floor_le_floor h

/-- C10: the per-sample quantizer is monotone, and every emitted value lies in
the signed 16-bit range from -32768 to 32767, so the `setInt16` store never
wraps. -/
theorem quantizeSample_monotone_range :
    (∀ s t : ℚ, s ≤ t → quantizeSample s ≤ quantizeSample t) ∧
    (∀ s : ℚ, -32768 ≤ quantizeSample s ∧ quantizeSample s ≤ 32767) := by
  constructor
  · intro s t hst
    exact ratTrunc_mono _ _ (convertSample_mono _ _ (clampSample_mono _ _ hst))
  · intro s
    have hc1 := neg_one_le_clampSample s
    have hc2 := clampSample_le_one s
    unfold quantizeSample convertSample ratTrunc
    split_ifs with hneg htr htr
    · constructor
      · have hb : (-32768 : ℚ) ≤ clampSample s * 32768 := by nlinarith
        have := Int.ceil_le_ceil hb
        rw [show ((-32768 : ℚ)) = ((-32768 : ℤ) : ℚ) by norm_num,
          Int.ceil_intCast] at this
        exact this
      · exact le_trans (ceil_nonpos_q _ (le_of_lt htr)) (by norm_num)
    · constructor
      · have hb : (0 : ℚ) ≤ clampSample s * 32768 := not_lt.mp htr
        exact le_trans (by norm_num) (Int.floor_nonneg.mpr hb)
      · have hb : clampSample s * 32768 ≤ 0 :=
          mul_nonpos_of_nonpos_of_nonneg (le_of_lt hneg) (by norm_num)
        exact le_trans (Int.floor_nonpos hb) (by norm_num)
    · exfalso
      have hb : (0 : ℚ) ≤ clampSample s * 32767 :=
        mul_nonneg (not_lt.mp hneg) (by norm_num)
      linarith
    · constructor
      · have hb : (0 : ℚ) ≤ clampSample s * 32767 :=
          mul_nonneg (not_lt.mp hneg) (by norm_num)
        exact le_trans (by norm_num) (Int.floor_nonneg.mpr hb)
      · have hb : clampSample s * 32767 ≤ 32767 := by nlinarith
        have := Int.floor_le_floor hb
        rw [show ((32767 : ℚ)) = ((32767 : ℤ) : ℚ) by norm_num,
          Int.floor_intCast] at this
        exact this

/-- Witness for the monotonicity and range theorem at concrete samples. -/
theorem quantizeSample_monotone_range_witness :
    quantizeSample 0 ≤ quantizeSample (1 / 2) ∧
    -32768 ≤ quantizeSample (1 / 2) ∧ quantizeSample (1 / 2) ≤ 32767 :=
  ⟨quantizeSample_monotone_range.1 0 (1 / 2) (by norm_num),
   quantizeSample_monotone_range.2 (1 / 2)⟩

/-- Counterexample to the claimed 1/32768 round-trip bound: at the in-range
sample 2/65535 the quantize-dequantize error is 2/65535, which exceeds
1/32768; and at the out-of-range sample 2 the clamp makes the error 1. -/
theorem quantize_roundtrip_bound_fails :
    1 / 32768 < |dequantizeSample (quantizeSample (2 / 65535)) - 2 / 65535| ∧
    1 / 32768 < |dequantizeSample (quantizeSample 2) - 2| := by
  constructor
  · have hq : quantizeSample (2 / 65535) = 0 := by
      unfold quantizeSample convertSample clampSample ratTrunc
      norm_num
    rw [hq]
    unfold dequantizeSample
    norm_num
    rw [abs_of_pos (by norm_num : (0 : ℚ) < 2 / 65535)]
    norm_num
  · have hq : quantizeSample 2 = 32767 := by
      unfold quantizeSample convertSample clampSample ratTrunc
      norm_num
    rw [hq]
    unfold dequantizeSample
    norm_num

/-- C9 amended: for every sample in the interval from -1 to 1, quantizing and
then dequantizing by the inverse scaling reproduces the sample within 1/32767
absolute error (negative samples are even within 1/32768). -/
theorem quantize_roundtrip_within (s : ℚ) (h1 : -1 ≤ s) (h2 : s ≤ 1) :
    |dequantizeSample (quantizeSample s) - s| ≤ 1 / 32767 := by
  have hcl : clampSample s = s := by
    unfold clampSample
    rw [min_eq_right h2, max_eq_right h1]
  unfold quantizeSample
  rw [hcl]
  unfold convertSample ratTrunc dequantizeSample
  by_cases hs : s < 0
  · rw [if_pos hs]
    have hneg : s * 32768 < 0 := mul_neg_of_neg_of_pos hs (by norm_num)
    rw [if_pos hneg]
    have hq1 : s * 32768 ≤ (⌈s * 32768⌉ : ℚ) := Int.le_ceil _
    have hq2 : ((⌈s * 32768⌉ : ℤ) : ℚ) < s * 32768 + 1 := Int.ceil_lt_add_one _
    have hqle : ⌈s * 32768⌉ ≤ 0 := ceil_nonpos_q _ (le_of_lt hneg)
    by_cases hq0 : ⌈s * 32768⌉ < 0
    · rw [if_pos hq0]
      have e : ((⌈s * 32768⌉ : ℤ) : ℚ) / 32768 - s =
          (((⌈s * 32768⌉ : ℤ) : ℚ) - s * 32768) / 32768 := by ring
      have hnum1 : (0 : ℚ) ≤ ((⌈s * 32768⌉ : ℤ) : ℚ) - s * 32768 := by linarith
      have hnum2 : ((⌈s * 32768⌉ : ℤ) : ℚ) - s * 32768 < 1 := by linarith
      rw [e, abs_of_nonneg (div_nonneg hnum1 (by norm_num))]
      have hb : (((⌈s * 32768⌉ : ℤ) : ℚ) - s * 32768) / 32768 ≤ 1 / 32768 :=
        (div_le_div_iff_of_pos_right (by norm_num)).mpr (le_of_lt hnum2)
      linarith
    · rw [if_neg hq0]
      have hq0' : ⌈s * 32768⌉ = 0 := le_antisymm hqle (not_lt.mp hq0)
      rw [hq0']
      rw [Int.cast_zero, zero_div, zero_sub, abs_neg, abs_of_nonpos (le_of_lt hs)]
      have hc : ((0 : ℤ) : ℚ) < s * 32768 + 1 := by rw [← hq0']; exact hq2
      have hsb : -1 / 32768 < s := by
        rw [Int.cast_zero] at hc
        linarith
      linarith
  · rw [if_neg hs]
    have hnn : ¬ (s * 32767 < 0) :=
      not_lt.mpr (mul_nonneg (not_lt.mp hs) (by norm_num))
    rw [if_neg hnn]
    have hq1 : ((⌊s * 32767⌋ : ℤ) : ℚ) ≤ s * 32767 := Int.floor_le _
    have hq2 : s * 32767 - 1 < ((⌊s * 32767⌋ : ℤ) : ℚ) := Int.sub_one_lt_floor _
    have hq0 : ¬ (⌊s * 32767⌋ < 0) :=
      not_lt.mpr (Int.floor_nonneg.mpr (not_lt.mp hnn))
    rw [if_neg hq0]
    rw [abs_sub_comm]
    have e : s - ((⌊s * 32767⌋ : ℤ) : ℚ) / 32767 =
        (s * 32767 - ((⌊s * 32767⌋ : ℤ) : ℚ)) / 32767 := by ring
    have hnum1 : (0 : ℚ) ≤ s * 32767 - ((⌊s * 32767⌋ : ℤ) : ℚ) := by linarith
    have hnum2 : s * 32767 - ((⌊s * 32767⌋ : ℤ) : ℚ) < 1 := by linarith
    rw [e, abs_of_nonneg (div_nonneg hnum1 (by norm_num))]
    exact (div_le_div_iff_of_pos_right (by norm_num)).mpr (le_of_lt hnum2)

/-- Witness for the amended round-trip bound at the concrete sample 1/2. -/
theorem quantize_roundtrip_within_witness :
    |dequantizeSample (quantizeSample (1 / 2)) - 1 / 2| ≤ 1 / 32767 :=
  quantize_roundtrip_within (1 / 2) (by norm_num) (by norm_num)

/-! ## Bounded sample-frame buffer

Embeds the `scriptProcessor.onaudioprocess` handler of `src/unnamed/part_000`
(lines 313-327) and `src/hooks/use-audio-visualization.ts` (lines 99-113):
  audioBufferRef.current.push(bufferData)
  if (audioBufferRef.current.length > MAX_BUFFER_SIZE) {
    audioBufferRef.current.shift()
  }
with `MAX_BUFFER_SIZE = 1024 * 200`. A frame is one `Float32Array` capture
block, modelled as a list of rationals. -/

def MAX_BUFFER_SIZE : ℕ := 1024 * 200

/-- One append to the sample buffer: push the new frame at the back and, if
the length now exceeds the capacity, shift off the front (oldest) frame. -/
def appendFrame (buf : List (List ℚ)) (f : List ℚ) : List (List ℚ) :=
  let b := buf ++ [f]
  if MAX_BUFFER_SIZE < b.length then b.tail else b

theorem appendFrame_length_le (buf : List (List ℚ)) (f : List ℚ)
    (h : buf.length ≤ MAX_BUFFER_SIZE) :
    (appendFrame buf f).length ≤ MAX_BUFFER_SIZE := by
  unfold appendFrame
  dsimp only
  split_ifs with hlt
  · simp only [List.length_tail, List.length_append, List.length_singleton]
    omega
  · simp only [List.length_append, List.length_singleton] at hlt ⊢
    omega

/-- C4: starting from the empty buffer, after every sequence of appends the
buffer holds at most CAPACITY = 1024 * 200 frames; one more append to a full
buffer keeps the bound and evicts exactly the single oldest frame (FIFO). -/
theorem sampleBuffer_bounded_fifo :
    (∀ fs : List (List ℚ), (fs.foldl appendFrame []).length ≤ MAX_BUFFER_SIZE) ∧
    (∀ buf f, buf.length ≤ MAX_BUFFER_SIZE →
      (appendFrame buf f).length ≤ MAX_BUFFER_SIZE) ∧
    (∀ buf f, buf.length = MAX_BUFFER_SIZE →
      appendFrame buf f = buf.tail ++ [f]) := by
  refine ⟨?_, appendFrame_length_le, ?_⟩
  · have aux : ∀ (fs : List (List ℚ)) (buf : List (List ℚ)),
        buf.length ≤ MAX_BUFFER_SIZE →
        (fs.foldl appendFrame buf).length ≤ MAX_BUFFER_SIZE := by
      intro fs
      induction fs with
      | nil => intro buf h; simpa using h
      | cons g gs ih =>
        intro buf h
        exact ih (appendFrame buf g) (appendFrame_length_le buf g h)
    intro fs
    exact aux fs [] (by simp [MAX_BUFFER_SIZE])
  · intro buf f h
    unfold appendFrame
    rw [if_pos (by simp only [List.length_append, List.length_singleton]; omega)]
    cases buf with
    | nil => exact absurd h (by decide)
    | cons a as => simp

/-- Witness for the buffer bound and FIFO eviction at concrete buffers. -/
theorem sampleBuffer_bounded_fifo_witness :
    (appendFrame [[(1 : ℚ)]] [2]).length ≤ MAX_BUFFER_SIZE ∧
    appendFrame (List.replicate MAX_BUFFER_SIZE ([] : List ℚ)) [3] =
      (List.replicate MAX_BUFFER_SIZE ([] : List ℚ)).tail ++ [[3]] :=
  ⟨sampleBuffer_bounded_fifo.2.1 [[(1 : ℚ)]] [2] (by norm_num [MAX_BUFFER_SIZE]),
   sampleBuffer_bounded_fifo.2.2 _ [3] (by simp)⟩

/-! ## Waveform decimation

Embeds the segment loop of `drawRecordingWaveform`
(`src/hooks/use-audio-visualization.ts` lines 224-262) and of
`drawDetailedWaveform` (`src/unnamed/part_000` lines 704-749):
  const lineWidth = 1
  const spacing = 0
  const totalLines = Math.floor(width / (lineWidth + spacing))
  const samplesPerLine = Math.max(1, Math.floor(combinedBuffer.length / totalLines))
  for (let i = 0; i < totalLines; i++)
    for (let j = 0; j < samplesPerLine; j++) {
      const dataIndex = i * samplesPerLine + j
      if (dataIndex < combinedBuffer.length) { … }
    }
-/

def segLineWidth : ℕ := 1

def segSpacing : ℕ := 0

/-- Number of drawn segments for a canvas of the given width. -/
def totalLines (width : ℕ) : ℕ := width / (segLineWidth + segSpacing)

/-- Samples scanned per segment for a buffer of length `L`. -/
def samplesPerLine (L width : ℕ) : ℕ := max 1 (L / totalLines width)

/-- The set of buffer indices segment `i` actually scans: indices
`i * samplesPerLine + j` for `j < samplesPerLine`, subject to the
`dataIndex < combinedBuffer.length` guard. -/
def segRange (L width i : ℕ) : Finset ℕ :=
  (Finset.Ico (i * samplesPerLine L width) ((i + 1) * samplesPerLine L width)).filter
    (fun d => d < L)

/-- Counterexample to the claimed gap-free partition: for a buffer of length
10 on a canvas of width 4, the four segments scan indices 0 through 7 only,
so samples 8 and 9 belong to no segment. -/
theorem decimation_partition_fails :
    ¬ ((Finset.range (totalLines 4)).biUnion (segRange 10 4) = Finset.range 10) := by
  decide

/-- C5 amended: the loop draws exactly `W / lineWidth` segments; distinct
segments scan disjoint index ranges; and together the segments scan exactly
the prefix of indices below `min (totalLines * samplesPerLine) L` — the whole
buffer precisely when `totalLines * samplesPerLine` reaches `L`, while the
final `L mod totalLines` samples are left unscanned when `L` is larger and
not divisible. -/
theorem decimation_segments_disjoint_cover (L W : ℕ) (_hW : 1 ≤ W) :
    totalLines W = W / segLineWidth ∧
    (∀ i j, i ≠ j → Disjoint (segRange L W i) (segRange L W j)) ∧
    (Finset.range (totalLines W)).biUnion (segRange L W) =
      Finset.range (min (totalLines W * samplesPerLine L W) L) := by
  have hspl : 1 ≤ samplesPerLine L W := le_max_left 1 _
  refine ⟨rfl, ?_, ?_⟩
  · have key : ∀ i j, i < j → Disjoint (segRange L W i) (segRange L W j) := by
      intro i j hij
      rw [Finset.disjoint_left]
      intro x hxi hxj
      simp only [segRange, Finset.mem_filter, Finset.mem_Ico] at hxi hxj
      have hmul : (i + 1) * samplesPerLine L W ≤ j * samplesPerLine L W :=
        Nat.mul_le_mul_right _ (Nat.succ_le_of_lt hij)
      omega
    intro i j hij
    rcases Nat.lt_or_ge i j with h | h
    · exact key i j h
    · exact (key j i (lt_of_le_of_ne h (Ne.symm hij))).symm
  · ext x
    simp only [Finset.mem_biUnion, Finset.mem_range, segRange, Finset.mem_filter,
      Finset.mem_Ico, Nat.lt_min]
    constructor
    · rintro ⟨i, hiT, ⟨hx1, hx2⟩, hxL⟩
      refine ⟨lt_of_lt_of_le hx2 (Nat.mul_le_mul_right _ (Nat.succ_le_of_lt hiT)), hxL⟩
    · rintro ⟨hxT, hxL⟩
      have hpos : 0 < samplesPerLine L W := hspl
      refine ⟨x / samplesPerLine L W, ?_, ⟨?_, ?_⟩, hxL⟩
      · exact (Nat.div_lt_iff_lt_mul hpos).mpr hxT
      · exact Nat.div_mul_le_self x _
      · have := Nat.lt_div_mul_add (a := x) hpos
        calc x < x / samplesPerLine L W * samplesPerLine L W + samplesPerLine L W := this
        _ = (x / samplesPerLine L W + 1) * samplesPerLine L W := by ring

/-- Witness for the amended decimation theorem at buffer length 10 and
canvas width 4. -/
theorem decimation_segments_disjoint_cover_witness :
    totalLines 4 = 4 / segLineWidth ∧
    Disjoint (segRange 10 4 0) (segRange 10 4 1) ∧
    (Finset.range (totalLines 4)).biUnion (segRange 10 4) =
      Finset.range (min (totalLines 4 * samplesPerLine 10 4) 10) := by
  have h := decimation_segments_disjoint_cover 10 4 (by norm_num)
  exact ⟨h.1, h.2.1 0 1 (by norm_num), h.2.2⟩

/-! ## Recorder lifecycle (src/unnamed/part_000, lines 246-544)

The state visible to `startRecording` / `stopRecording` / `forceStopRecording`
of the 48 kHz recorder component: the React state flags, the mutable refs,
the captured chunk list, and the error message. `MediaRecorder.state` is
`recording` or `inactive`; `AudioContext.state` is `running` or `closed`;
stream tracks carry a live flag. Chunks are recorded by their byte size. -/

inductive RecState
  | recording
  | inactive
deriving DecidableEq, Repr

inductive CtxState
  | running
  | closed
deriving DecidableEq, Repr

structure RecorderState where
  isRecording : Bool
  isProcessing : Bool
  timerActive : Bool
  hardDeadlineActive : Bool
  mediaRecorder : Option RecState
  tracks : Option (List Bool)
  audioContext : Option CtxState
  animationFrame : Bool
  chunks : List ℕ
  recordingError : Option String
  recordedAudioUrl : Option String
deriving DecidableEq, Repr

/-- The error message the source stores when no audio data was captured
(`setRecordingError("No audio data was captured. Please try again.")`). -/
def noDataMsg : String := "No audio data was captured. Please try again."

/-- The `streamRef.current.getTracks().forEach((track) => track.stop())`
step: every track of the stream, if a stream exists, becomes non-live. -/
def stopTracks (tracks : Option (List Bool)) : Option (List Bool) :=
  match tracks with
  | none => none
  | some ts => some (ts.map fun _ => false)

/-- The `mediaRecorderRef` teardown step: `if (state === "recording") stop()`. -/
def haltRecorder (r : Option RecState) : Option RecState :=
  if r = some RecState.recording then some RecState.inactive else r

/-- The `audioContextRef` teardown step: `if (state !== "closed") close()`. -/
def closeContext (c : Option CtxState) : Option CtxState :=
  if c = some CtxState.running then some CtxState.closed else c

/-- `forceStopRecording` of `src/unnamed/part_000` lines 468-533: flip the
recording flag, clear the interval timer, halt the recorder, stop every
track, close the audio context, cancel the animation frame, and set the
no-data error message when the chunk list is empty. -/
def forceStopRecording (s : RecorderState) : RecorderState :=
  { s with
    isRecording := false
    timerActive := false
    mediaRecorder := haltRecorder s.mediaRecorder
    tracks := stopTracks s.tracks
    audioContext := closeContext s.audioContext
    animationFrame := false
    recordingError := if s.chunks.isEmpty then some noDataMsg else s.recordingError }

/-- `stopRecording` of `src/unnamed/part_000` lines 536-544:
`if (!mediaRecorderRef.current || !isRecording) return` and otherwise
`forceStopRecording()`. -/
def stopRecording (s : RecorderState) : RecorderState :=
  if s.mediaRecorder = none ∨ s.isRecording = false then s else forceStopRecording s

/-- The state right after a successful `startRecording` (lines 246-455):
recording with a live mono track, a running audio processing graph, an
active cooperative interval, a scheduled hard deadline, an in-flight
animation frame, and no chunks, error, or artifact URL yet. -/
def startedState : RecorderState :=
  { isRecording := true
    isProcessing := false
    timerActive := true
    hardDeadlineActive := true
    mediaRecorder := some RecState.recording
    tracks := some [true]
    audioContext := some CtxState.running
    animationFrame := true
    chunks := []
    recordingError := none
    recordedAudioUrl := none }

/-- The idle component state on mount: `useState(false)` flags, null refs,
empty chunk list, no error. -/
def initialState : RecorderState :=
  { isRecording := false
    isProcessing := false
    timerActive := false
    hardDeadlineActive := false
    mediaRecorder := none
    tracks := none
    audioContext := none
    animationFrame := false
    chunks := []
    recordingError := none
    recordedAudioUrl := none }

/-! ## Hard-deadline auto-stop (src/unnamed/part_000 lines 402-411)

The source schedules
  const stopTimeout = setTimeout(() => {
    if (isRecording) { forceStopRecording() }
  }, recordingDuration * 1000 + 500)
inside `startRecording`. The callback closure captures the `isRecording`
React state binding of the render in which `startRecording` ran. The start
button invokes `startRecording` only while `isRecording` is false, and
`setIsRecording(true)` queues new state for the next render without mutating
the captured binding, so the value the callback later reads is false. -/

/-- Time at which the hard-deadline callback fires, in milliseconds after
recording start: `recordingDuration * 1000 + 500`. -/
def hardDeadlineMs (d : ℕ) : ℕ := d * 1000 + 500

/-- The scheduled hard-deadline callback: force-stop only if the captured
`isRecording` binding was true. -/
def hardDeadlineCallback (capturedIsRecording : Bool) (s : RecorderState) :
    RecorderState :=
  if capturedIsRecording then forceStopRecording s else s

/-- The value of the `isRecording` binding captured by the closure that
scheduled the hard deadline: false, per the note above. -/
def capturedIsRecordingAtStart : Bool := false

/-- C1 (code bug): for every target duration, if the cooperative 100 ms tick
never fires, then when the hard deadline fires at d * 1000 + 500 ms the
callback leaves the session state completely unchanged — still Recording with
a live track — because it tests the stale captured `isRecording` (false) and
so never calls `forceStopRecording`; had the callback seen the live value
(true) it would have force-stopped.  The session therefore never reaches the
stop/processing state by the hard deadline, contradicting the claim. -/
theorem hardDeadline_callback_noop_stale_closure :
    (∀ d : ℕ, hardDeadlineMs d = d * 1000 + 500) ∧
    hardDeadlineCallback capturedIsRecordingAtStart startedState = startedState ∧
    (hardDeadlineCallback capturedIsRecordingAtStart startedState).isRecording = true ∧
    (hardDeadlineCallback capturedIsRecordingAtStart startedState).mediaRecorder =
      some RecState.recording ∧
    hardDeadlineCallback true startedState = forceStopRecording startedState ∧
    (forceStopRecording startedState).isRecording = false :=
  ⟨fun _ => rfl, rfl, rfl, rfl, rfl, rfl⟩

/-- Counterexample to the claimed exact error message: stopping a session
whose device produced zero chunks stores
"No audio data was captured. Please try again.", which is not the claimed
"No audio data was captured.". -/
theorem noData_message_exact_fails :
    (forceStopRecording startedState).recordingError = some noDataMsg ∧
    (forceStopRecording startedState).recordingError ≠
      some "No audio data was captured." := by
  refine ⟨rfl, ?_⟩
  have h : (forceStopRecording startedState).recordingError = some noDataMsg := rfl
  rw [h]
  simp [noDataMsg]

/-- C6 amended: every session whose chunk list is empty when the stop
completes ends with the error message
"No audio data was captured. Please try again.", is no longer recording, and
neither enters processing nor produces an artifact URL. -/
theorem noData_error_on_zero_chunks (s : RecorderState)
    (hc : s.chunks = []) (hp : s.isProcessing = false)
    (hu : s.recordedAudioUrl = none) :
    (forceStopRecording s).recordingError = some noDataMsg ∧
    (forceStopRecording s).isRecording = false ∧
    (forceStopRecording s).isProcessing = false ∧
    (forceStopRecording s).recordedAudioUrl = none := by
  unfold forceStopRecording
  rw [hc]
  exact ⟨rfl, rfl, hp, hu⟩

/-- Witness for the zero-chunk error theorem at the freshly started session
state. -/
theorem noData_error_on_zero_chunks_witness :
    (forceStopRecording startedState).recordingError = some noDataMsg ∧
    (forceStopRecording startedState).isRecording = false ∧
    (forceStopRecording startedState).isProcessing = false ∧
    (forceStopRecording startedState).recordedAudioUrl = none :=
  noData_error_on_zero_chunks startedState rfl rfl rfl

/-! ## Idempotence and fault tolerance of the stop path -/

/-- True when every track of the stream (if any) is stopped. -/
def tracksReleased (s : RecorderState) : Bool :=
  match s.tracks with
  | none => true
  | some ts => ts.all (fun b => !b)

/-- True when the media recorder (if any) is not in the recording state. -/
def recorderHalted (s : RecorderState) : Bool :=
  match s.mediaRecorder with
  | some RecState.recording => false
  | _ => true

/-- True when the audio context (if any) is closed. -/
def ctxReleased (s : RecorderState) : Bool :=
  match s.audioContext with
  | some CtxState.running => false
  | _ => true

theorem haltRecorder_idem (r : Option RecState) :
    haltRecorder (haltRecorder r) = haltRecorder r := by
  unfold haltRecorder
  split_ifs with h1 h2 <;> simp_all

theorem stopTracks_idem (t : Option (List Bool)) :
    stopTracks (stopTracks t) = stopTracks t := by
  unfold stopTracks
  cases t <;> simp

theorem closeContext_idem (c : Option CtxState) :
    closeContext (closeContext c) = closeContext c := by
  unfold closeContext
  split_ifs with h1 h2 <;> simp_all

theorem map_false_of_all_not (ts : List Bool) (h : ts.all (fun b => !b) = true) :
    ts.map (fun _ => false) = ts := by
  induction ts with
  | nil => rfl
  | cons a as ih =>
    simp only [List.all_cons, Bool.and_eq_true, Bool.not_eq_true'] at h
    simp [ih h.2, h.1]

/-- Counterexample to the claimed no-op: calling `forceStopRecording` in the
idle state (not recording, empty chunk list) sets the no-data error message,
so the session state is changed. -/
theorem forceStop_not_noop_when_idle :
    initialState.isRecording = false ∧
    forceStopRecording initialState ≠ initialState := by
  refine ⟨rfl, ?_⟩
  intro h
  have h2 : (forceStopRecording initialState).recordingError = some noDataMsg := rfl
  rw [h] at h2
  exact absurd h2 (by simp [initialState])

/-- C7 amended: `stopRecording` is a no-op whenever no recorder exists or the
recording flag is down; `forceStopRecording` is idempotent; and a
`forceStopRecording` call while not recording leaves the state unchanged when
the resources are already released and chunks were captured, while with an
empty chunk list its only effect is to set the no-data error message. -/
theorem stop_noop_forceStop_idempotent :
    (∀ s : RecorderState, s.mediaRecorder = none ∨ s.isRecording = false →
      stopRecording s = s) ∧
    (∀ s : RecorderState,
      forceStopRecording (forceStopRecording s) = forceStopRecording s) ∧
    (∀ s : RecorderState, s.isRecording = false → s.timerActive = false →
      s.animationFrame = false → recorderHalted s = true →
      tracksReleased s = true → ctxReleased s = true → s.chunks ≠ [] →
      forceStopRecording s = s) ∧
    (∀ s : RecorderState, s.isRecording = false → s.timerActive = false →
      s.animationFrame = false → recorderHalted s = true →
      tracksReleased s = true → ctxReleased s = true → s.chunks = [] →
      forceStopRecording s = { s with recordingError := some noDataMsg }) := by
  refine ⟨?_, ?_, ?_, ?_⟩
  · intro s h
    unfold stopRecording
    rw [if_pos h]
  · intro s
    obtain ⟨ir, ip, ta, hd, mr, tk, ac, af, ch, er, url⟩ := s
    simp only [forceStopRecording, haltRecorder_idem, stopTracks_idem,
      closeContext_idem]
    split_ifs <;> rfl
  · intro s h1 h2 h3 h4 h5 h6 h7
    obtain ⟨ir, ip, ta, hd, mr, tk, ac, af, ch, er, url⟩ := s
    simp only [recorderHalted] at h4
    simp only [tracksReleased] at h5
    simp only [ctxReleased] at h6
    simp only at h1 h2 h3 h7
    subst h1 h2 h3
    have hmr : haltRecorder mr = mr := by
      unfold haltRecorder
      rcases mr with _ | r
      · simp
      · cases r
        · simp at h4
        · simp
    have htk : stopTracks tk = tk := by
      unfold stopTracks
      rcases tk with _ | ts
      · rfl
      · simp only at h5
        simp [map_false_of_all_not ts h5]
    have hac : closeContext ac = ac := by
      unfold closeContext
      rcases ac with _ | c
      · simp
      · cases c
        · simp at h6
        · simp
    have her : (if ch.isEmpty then some noDataMsg else er) = er := by
      rcases ch with _ | ⟨c, cs⟩
      · exact absurd rfl h7
      · simp
    simp only [forceStopRecording]
    rw [hmr, htk, hac, her]
  · intro s h1 h2 h3 h4 h5 h6 h7
    obtain ⟨ir, ip, ta, hd, mr, tk, ac, af, ch, er, url⟩ := s
    simp only [recorderHalted] at h4
    simp only [tracksReleased] at h5
    simp only [ctxReleased] at h6
    simp only at h1 h2 h3 h7
    subst h1 h2 h3 h7
    have hmr : haltRecorder mr = mr := by
      unfold haltRecorder
      rcases mr with _ | r
      · simp
      · cases r
        · simp at h4
        · simp
    have htk : stopTracks tk = tk := by
      unfold stopTracks
      rcases tk with _ | ts
      · rfl
      · simp only at h5
        simp [map_false_of_all_not ts h5]
    have hac : closeContext ac = ac := by
      unfold closeContext
      rcases ac with _ | c
      · simp
      · cases c
        · simp at h6
        · simp
    simp only [forceStopRecording]
    rw [hmr, htk, hac]
    simp

/-- Witness for the stop/force-stop idempotence theorem at concrete states. -/
theorem stop_noop_forceStop_idempotent_witness :
    stopRecording initialState = initialState ∧
    forceStopRecording (forceStopRecording startedState) =
      forceStopRecording startedState ∧
    forceStopRecording
        { initialState with chunks := [4096], mediaRecorder := some RecState.inactive } =
      { initialState with chunks := [4096], mediaRecorder := some RecState.inactive } ∧
    forceStopRecording initialState =
      { initialState with recordingError := some noDataMsg } :=
  ⟨stop_noop_forceStop_idempotent.1 initialState (Or.inl rfl),
   stop_noop_forceStop_idempotent.2.1 startedState,
   stop_noop_forceStop_idempotent.2.2.1 _ rfl rfl rfl rfl rfl rfl (by simp),
   stop_noop_forceStop_idempotent.2.2.2 initialState rfl rfl rfl rfl rfl rfl rfl⟩

/-! ## Fault tolerance of the teardown steps (lines 480-520)

In the source, the recorder-halting step, the track-stopping step, and the
context-closing step each sit in their own try/catch block, so an exception
raised inside one of them is swallowed and the following steps still run.
`forceStopWithFaults` runs the same sequence with a fault flag per guarded
step: a true flag means that step threw, so its effect on its own resource is
lost, while control still reaches the later steps. -/

def forceStopWithFaults (failRecorder failTracks failCtx : Bool)
    (s : RecorderState) : RecorderState :=
  let s1 := { s with isRecording := false, timerActive := false }
  let s2 := if failRecorder then s1
    else { s1 with mediaRecorder := haltRecorder s1.mediaRecorder }
  let s3 := if failTracks then s2
    else { s2 with tracks := stopTracks s2.tracks }
  let s4 := if failCtx then s3
    else { s3 with audioContext := closeContext s3.audioContext }
  let s5 := { s4 with animationFrame := false }
  { s5 with recordingError :=
      if s5.chunks.isEmpty then some noDataMsg else s5.recordingError }

theorem haltRecorder_halted (r : Option RecState) :
    (match haltRecorder r with
      | some RecState.recording => false
      | _ => true) = true := by
  unfold haltRecorder
  rcases r with _ | r
  · simp
  · cases r <;> simp

theorem stopTracks_released (t : Option (List Bool)) :
    (match stopTracks t with
      | none => true
      | some ts => ts.all (fun b => !b)) = true := by
  unfold stopTracks
  rcases t with _ | ts
  · rfl
  · simp [List.all_map]

theorem closeContext_released (c : Option CtxState) :
    (match closeContext c with
      | some CtxState.running => false
      | _ => true) = true := by
  unfold closeContext
  rcases c with _ | c
  · simp
  · cases c <;> simp

/-- C8: each of the three guarded teardown steps is independently fault
tolerant.  Whatever combination of the recorder-halting, track-stopping and
context-closing steps throws, every step that does not throw still performs
its release: with the track step healthy all tracks end stopped no matter
which other steps fail, and likewise for the recorder and the context;
the flag, timer and animation-frame updates always happen; and with no
faults the function coincides with `forceStopRecording`. -/
theorem forceStop_teardown_fault_tolerant :
    (∀ fr fc : Bool, ∀ s : RecorderState,
      tracksReleased (forceStopWithFaults fr false fc s) = true) ∧
    (∀ ft fc : Bool, ∀ s : RecorderState,
      recorderHalted (forceStopWithFaults false ft fc s) = true) ∧
    (∀ fr ft : Bool, ∀ s : RecorderState,
      ctxReleased (forceStopWithFaults fr ft false s) = true) ∧
    (∀ fr ft fc : Bool, ∀ s : RecorderState,
      (forceStopWithFaults fr ft fc s).isRecording = false ∧
      (forceStopWithFaults fr ft fc s).timerActive = false ∧
      (forceStopWithFaults fr ft fc s).animationFrame = false) ∧
    (∀ s : RecorderState, forceStopWithFaults false false false s =
      forceStopRecording s) := by
  refine ⟨?_, ?_, ?_, ?_, ?_⟩
  · intro fr fc s
    unfold forceStopWithFaults tracksReleased
    cases fr <;> cases fc <;> simp <;> exact stopTracks_released _
  · intro ft fc s
    unfold forceStopWithFaults recorderHalted
    cases ft <;> cases fc <;> simp <;> exact haltRecorder_halted _
  · intro fr ft s
    unfold forceStopWithFaults ctxReleased
    cases fr <;> cases ft <;> simp <;> exact closeContext_released _
  · intro fr ft fc s
    unfold forceStopWithFaults
    cases fr <;> cases ft <;> cases fc <;> exact ⟨rfl, rfl, rfl⟩
  · intro s
    unfold forceStopWithFaults forceStopRecording
    simp
